import Mathlib

/-!
Verification of `scripts/ladder-summarize.py` (OpenSkelo).

The script reads a JSON array of test-result records, aggregates result
counts, locates the first `FAIL` record and all `BLOCKED` records, renders a
Markdown report as a list of lines joined by newlines (plus one final
newline), writes it to the output path and prints that path.

The embedding below mirrors the script statement by statement:
* a record is a mapping with the four optional string keys the script reads;
* `countLabel` is `Counter(r.get('result', 'UNKNOWN') for r in rows)[lbl]`;
* `rootFailure` is `next((r for r in rows if r.get('result') == 'FAIL'), None)`;
* `blocked` is `[r for r in rows if r.get('result') == 'BLOCKED']`;
* `renderLines` is the `lines` list the script builds (the timestamp and the
  input path are parameters, standing for the clock reading and `in_path`);
* `joinLines` is `'\n'.join(lines)` and `renderDoc` appends the final `'\n'`;
* `run` is `main`: the missing-input check, the write, the print, the exit
  code.
-/

namespace LadderSummarize

/-- One test outcome as the script reads it: a mapping with the four
optional keys `test`, `result`, `code`, `detail` (values modelled as
strings, per the data model of the input format). `none` means the key is
absent. -/
structure ResultRecord where
  test : Option String
  result : Option String
  code : Option String
  detail : Option String
deriving DecidableEq

/-- `r.get('result', 'UNKNOWN')`: the label a record is counted under. -/
def resultLabel (r : ResultRecord) : String :=
  r.result.getD "UNKNOWN"

/-- `Counter(r.get('result', 'UNKNOWN') for r in rows)[lbl]` — the number of
records whose (defaulted) result label equals `lbl`. -/
def countLabel (rows : List ResultRecord) (lbl : String) : Nat :=
  (rows.filter (fun r => resultLabel r == lbl)).length

/-- `next((r for r in rows if r.get('result') == 'FAIL'), None)` — the first
record whose `result` is exactly `"FAIL"`. -/
def rootFailure (rows : List ResultRecord) : Option ResultRecord :=
  rows.find? (fun r => r.result == some "FAIL")

/-- `[r for r in rows if r.get('result') == 'BLOCKED']`. -/
def blocked (rows : List ResultRecord) : List ResultRecord :=
  rows.filter (fun r => r.result == some "BLOCKED")

/-- Python string interpolation of a value that may be `None`:
`f"{x}"` renders `None` as the text `None`. Used for
`root_failure.get('test')`, which is called without a default. -/
def pyStr : Option String → String
  | some s => s
  | none => "None"

/-- The matrix bullet produced for one record:
`f'- Test {test}: {result} | {code} | {detail}'` with the defaults
`'?'`, `'UNKNOWN'`, `'UNKNOWN'`, `''` used at lines 44-47 of the script. -/
def matrixLine (r : ResultRecord) : String :=
  "- Test " ++ (r.test.getD "?" ++ (": " ++ (r.result.getD "UNKNOWN" ++
    (" | " ++ (r.code.getD "UNKNOWN" ++ (" | " ++ r.detail.getD ""))))))

/-- `f'- Downstream blocked: {len(blocked)} test(s)'`. -/
def dsLine (n : Nat) : String :=
  "- Downstream blocked: " ++ (toString n ++ " test(s)")

/-- The lines appended inside `if root_failure:`, as a function of the
found record (if any) and of `len(blocked)` — the only two data the block
reads. The found record's `test` is read with `.get('test')` (no default,
so an absent key prints as `None`), `code` defaults to `UNKNOWN`, `detail`
to the empty string; the downstream line appears only when the blocked
list is nonempty (`if blocked:`). -/
def rootCauseOf (rf : Option ResultRecord) (nblocked : Nat) : List String :=
  match rf with
  | none => []
  | some r =>
      ["## Root cause",
       "- Test " ++ (pyStr r.test ++ (": `" ++ (r.code.getD "UNKNOWN" ++ "`"))),
       "- Detail: " ++ r.detail.getD ""]
      ++ (if nblocked = 0 then [] else [dsLine nblocked])
      ++ [""]

/-- The `## Root cause` section of a run: empty when no record has result
`FAIL`. -/
def rootCauseLines (rows : List ResultRecord) : List String :=
  rootCauseOf (rootFailure rows) (blocked rows).length

/-- The first ten lines the script appends: title, metadata (timestamp
`ts` and input path `inPath` are the two run-dependent strings) and the
`## Outcome` counts. -/
def headerLines (rows : List ResultRecord) (ts inPath : String) : List String :=
  ["# Ladder Summary", "",
   "- Generated: " ++ ts,
   "- Input: `" ++ (inPath ++ "`"),
   "", "## Outcome",
   "- PASS: " ++ toString (countLabel rows "PASS"),
   "- FAIL: " ++ toString (countLabel rows "FAIL"),
   "- BLOCKED: " ++ toString (countLabel rows "BLOCKED"),
   ""]

/-- The full `lines` list the script builds before joining: header,
optional root-cause section, and the test matrix with one bullet per
record in input order. -/
def renderLines (rows : List ResultRecord) (ts inPath : String) : List String :=
  headerLines rows ts inPath
  ++ rootCauseLines rows
  ++ ("## Test matrix" :: rows.map matrixLine)

/-- `'\n'.join(lines)`. -/
def joinLines : List String → String
  | [] => ""
  | [l] => l
  | l :: l' :: ls => l ++ ("\n" ++ joinLines (l' :: ls))

/-- The text written to the output file: the joined lines plus one final
newline (`'\n'.join(lines) + '\n'`). -/
def renderDoc (rows : List ResultRecord) (ts inPath : String) : String :=
  joinLines (renderLines rows ts inPath) ++ "\n"

/-- Observable outcome of one invocation of `main`: process exit code, the
content written to the output path (`none` = no write happened), standard
output and standard error. -/
structure RunOutcome where
  exitCode : Nat
  written : Option String
  stdout : String
  stderr : String
deriving DecidableEq

/-- `main`, after argument resolution and JSON parsing: `inputExists` is
whether `in_path.exists()`; `rows` the parsed records; `ts` the clock
reading. A missing input raises `SystemExit(f'Input not found: {in_path}')`
— exit code 1, the message on stderr, nothing written. Otherwise the
rendered document is written, the output path printed, exit code 0. -/
def run (inputExists : Bool) (rows : List ResultRecord) (ts inPath outPath : String) :
    RunOutcome :=
  if inputExists then
    { exitCode := 0
      written := some (renderDoc rows ts inPath)
      stdout := outPath ++ "\n"
      stderr := "" }
  else
    { exitCode := 1
      written := none
      stdout := ""
      stderr := "Input not found: " ++ inPath }

/-- Number of consecutive `'\n'` characters at the very end of a string. -/
def trailingNewlines (s : String) : Nat :=
  (s.data.reverse.takeWhile (fun c => c == '\n')).length

/-- Last character of a string, if any. -/
def lastChar (s : String) : Option Char :=
  s.data.reverse.head?

/-- `l` begins with the characters of `p`. Every line the script emits
begins with a fixed literal, and distinct fixed literals keep distinct
line shapes apart. -/
def startsWithStr (p l : String) : Prop :=
  ∃ r, l.data = p.data ++ r

lemma startsWithStr_self (s : String) : startsWithStr s s :=
  ⟨[], (List.append_nil _).symm⟩

lemma startsWithStr_app (p x : String) : startsWithStr p (p ++ x) :=
  ⟨x.data, String.data_append p x⟩

lemma take_app (p x : List Char) (k : Nat) (hk : k ≤ p.length) :
    (p ++ x).take k = p.take k := by
  rw [List.take_append_eq_append_take, Nat.sub_eq_zero_of_le hk, List.take_zero,
    List.append_nil]

/-- Two strings beginning with literals that already differ within their
first `k` characters are distinct. -/
lemma ne_of_lead {p q l m : String} (k : Nat) (hl : startsWithStr p l)
    (hm : startsWithStr q m) (h1 : k ≤ p.data.length) (h2 : k ≤ q.data.length)
    (hne : p.data.take k ≠ q.data.take k) : l ≠ m := by
  rcases hl with ⟨r1, e1⟩
  rcases hm with ⟨r2, e2⟩
  intro he
  apply hne
  have hdata : l.data = m.data := by rw [he]
  rw [e1, e2] at hdata
  have h3 : (p.data ++ r1).take k = (q.data ++ r2).take k := by rw [hdata]
  rwa [take_app _ _ _ h1, take_app _ _ _ h2] at h3

lemma ne_empty_of_lead {p l : String} (hl : startsWithStr p l)
    (hp : p.data ≠ []) : l ≠ "" := by
  rcases hl with ⟨r, e⟩
  intro he
  rw [he] at e
  have e' : ([] : List Char) = p.data ++ r := e
  exact hp (List.append_eq_nil.mp e'.symm).1

lemma rootFailure_eq_none {rows : List ResultRecord}
    (h : ∀ r ∈ rows, r.result ≠ some "FAIL") : rootFailure rows = none := by
  rw [rootFailure, List.find?_eq_none]
  intro r hr
  simp only [beq_iff_eq]
  exact h r hr

lemma rootFailure_append_first (xs ys : List ResultRecord) {r : ResultRecord}
    (hxs : ∀ x ∈ xs, x.result ≠ some "FAIL") (hr : r.result = some "FAIL") :
    rootFailure (xs ++ r :: ys) = some r := by
  induction xs with
  | nil =>
      rw [List.nil_append]
      show List.find? _ (r :: ys) = some r
      exact List.find?_cons_of_pos _ (by simp [beq_iff_eq, hr])
  | cons x xs ih =>
      have hx : ¬ (x.result == some "FAIL") = true := by
        simp only [beq_iff_eq]
        exact hxs x (List.mem_cons_self _ _)
      rw [List.cons_append]
      show List.find? _ (x :: (xs ++ r :: ys)) = some r
      rw [List.find?_cons_of_neg (p := fun a : ResultRecord => a.result == some "FAIL") _ hx]
      exact ih (fun a ha => hxs a (List.mem_cons_of_mem _ ha))

lemma blocked_append (xs ys : List ResultRecord) :
    blocked (xs ++ ys) = blocked xs ++ blocked ys :=
  List.filter_append _ _

lemma countLabel_cons (r : ResultRecord) (rows : List ResultRecord) (lbl : String) :
    countLabel (r :: rows) lbl =
      (if resultLabel r = lbl then 1 else 0) + countLabel rows lbl := by
  by_cases h : resultLabel r = lbl
  · simp [countLabel, List.filter_cons, h, Nat.add_comm]
  · simp [countLabel, List.filter_cons, h]

lemma dsLine_lead (n : Nat) : startsWithStr "- Downstream blocked: " (dsLine n) :=
  startsWithStr_app _ _

lemma matrixLine_eq_app (r : ResultRecord) :
    matrixLine r = "- Test " ++ (r.test.getD "?" ++ (": " ++ (r.result.getD "UNKNOWN" ++
      (" | " ++ (r.code.getD "UNKNOWN" ++ (" | " ++ r.detail.getD "")))))) := rfl

/-- A downstream-blocked line can only arise from the one place the script
appends it: inside the root-cause block, with `len(blocked)` as the count. -/
lemma dsLine_mem_rootCauseOf {n : Nat} {rf : Option ResultRecord} {m : Nat}
    (h : dsLine n ∈ rootCauseOf rf m) :
    rf.isSome = true ∧ m ≠ 0 ∧ dsLine n = dsLine m := by
  match rf with
  | none => simp [rootCauseOf] at h
  | some r =>
      by_cases hm : m = 0
      · simp [rootCauseOf, hm] at h
        rcases h with h | h | h | h
        · exact absurd h (ne_of_lead 1 (dsLine_lead n) (startsWithStr_self _)
            (by decide) (by decide) (by decide))
        · exact absurd h (ne_of_lead 3 (dsLine_lead n) (startsWithStr_app "- Test " _)
            (by decide) (by decide) (by decide))
        · exact absurd h (ne_of_lead 4 (dsLine_lead n) (startsWithStr_app "- Detail: " _)
            (by decide) (by decide) (by decide))
        · exact absurd h (ne_empty_of_lead (dsLine_lead n) (by decide))
      · simp [rootCauseOf, hm] at h
        rcases h with h | h | h | h | h
        · exact absurd h (ne_of_lead 1 (dsLine_lead n) (startsWithStr_self _)
            (by decide) (by decide) (by decide))
        · exact absurd h (ne_of_lead 3 (dsLine_lead n) (startsWithStr_app "- Test " _)
            (by decide) (by decide) (by decide))
        · exact absurd h (ne_of_lead 4 (dsLine_lead n) (startsWithStr_app "- Detail: " _)
            (by decide) (by decide) (by decide))
        · exact ⟨rfl, hm, h⟩
        · exact absurd h (ne_empty_of_lead (dsLine_lead n) (by decide))

/-- Characterization of the downstream-blocked line in the rendered
document: present exactly when a root failure exists and the blocked list
is nonempty, and then only with `len(blocked)` as its count. -/
lemma dsLine_mem_iff (rows : List ResultRecord) (ts inPath : String) (n : Nat) :
    dsLine n ∈ renderLines rows ts inPath ↔
      ((rootFailure rows).isSome = true ∧ (blocked rows).length ≠ 0 ∧
        dsLine n = dsLine (blocked rows).length) := by
  constructor
  · intro h
    unfold renderLines headerLines at h
    simp only [List.mem_append, List.mem_cons, List.mem_map] at h
    rcases h with ((h | h | h | h | h | h | h | h | h | h | hnil) | h) | h | ⟨r, _, hr⟩
    · exact absurd h (ne_of_lead 1 (dsLine_lead n) (startsWithStr_self "# Ladder Summary")
        (by decide) (by decide) (by decide))
    · exact absurd h (ne_empty_of_lead (dsLine_lead n) (by decide))
    · exact absurd h (ne_of_lead 3 (dsLine_lead n) (startsWithStr_app "- Generated: " ts)
        (by decide) (by decide) (by decide))
    · exact absurd h (ne_of_lead 3 (dsLine_lead n) (startsWithStr_app "- Input: `" _)
        (by decide) (by decide) (by decide))
    · exact absurd h (ne_empty_of_lead (dsLine_lead n) (by decide))
    · exact absurd h (ne_of_lead 1 (dsLine_lead n) (startsWithStr_self "## Outcome")
        (by decide) (by decide) (by decide))
    · exact absurd h (ne_of_lead 3 (dsLine_lead n) (startsWithStr_app "- PASS: " _)
        (by decide) (by decide) (by decide))
    · exact absurd h (ne_of_lead 3 (dsLine_lead n) (startsWithStr_app "- FAIL: " _)
        (by decide) (by decide) (by decide))
    · exact absurd h (ne_of_lead 3 (dsLine_lead n) (startsWithStr_app "- BLOCKED: " _)
        (by decide) (by decide) (by decide))
    · exact absurd h (ne_empty_of_lead (dsLine_lead n) (by decide))
    · exact absurd hnil (List.not_mem_nil _)
    · exact dsLine_mem_rootCauseOf h
    · exact absurd h (ne_of_lead 1 (dsLine_lead n) (startsWithStr_self "## Test matrix")
        (by decide) (by decide) (by decide))
    · rw [matrixLine_eq_app] at hr
      exact absurd hr.symm (ne_of_lead 3 (dsLine_lead n) (startsWithStr_app "- Test " _)
        (by decide) (by decide) (by decide))
  · rintro ⟨h1, h2, h3⟩
    rw [h3, renderLines]
    refine List.mem_append.mpr (Or.inl (List.mem_append.mpr (Or.inr ?_)))
    obtain ⟨r, hr⟩ := Option.isSome_iff_exists.mp h1
    unfold rootCauseLines
    rw [hr]
    simp [rootCauseOf, h2]

/-- The `## Root cause` header appears in the rendered document exactly
when a root failure exists. -/
lemma rootCauseHeader_mem_iff (rows : List ResultRecord) (ts inPath : String) :
    "## Root cause" ∈ renderLines rows ts inPath ↔ (rootFailure rows).isSome = true := by
  constructor
  · intro h
    unfold renderLines headerLines at h
    simp only [List.mem_append, List.mem_cons, List.mem_map] at h
    rcases h with ((h | h | h | h | h | h | h | h | h | h | hnil) | h) | h | ⟨r, _, hr⟩
    · exact absurd h (by decide)
    · exact absurd h (by decide)
    · exact absurd h (ne_of_lead 1 (startsWithStr_self "## Root cause")
        (startsWithStr_app "- Generated: " ts) (by decide) (by decide) (by decide))
    · exact absurd h (ne_of_lead 1 (startsWithStr_self "## Root cause")
        (startsWithStr_app "- Input: `" _) (by decide) (by decide) (by decide))
    · exact absurd h (by decide)
    · exact absurd h (by decide)
    · exact absurd h (ne_of_lead 1 (startsWithStr_self "## Root cause")
        (startsWithStr_app "- PASS: " _) (by decide) (by decide) (by decide))
    · exact absurd h (ne_of_lead 1 (startsWithStr_self "## Root cause")
        (startsWithStr_app "- FAIL: " _) (by decide) (by decide) (by decide))
    · exact absurd h (ne_of_lead 1 (startsWithStr_self "## Root cause")
        (startsWithStr_app "- BLOCKED: " _) (by decide) (by decide) (by decide))
    · exact absurd h (by decide)
    · exact absurd hnil (List.not_mem_nil _)
    · rcases hrf : rootFailure rows with _ | r
      · unfold rootCauseLines at h
        rw [hrf] at h
        simp [rootCauseOf] at h
      · rfl
    · exact absurd h (by decide)
    · rw [matrixLine_eq_app] at hr
      exact absurd hr.symm (ne_of_lead 1 (startsWithStr_self "## Root cause")
        (startsWithStr_app "- Test " _) (by decide) (by decide) (by decide))
  · intro h1
    unfold renderLines
    refine List.mem_append.mpr (Or.inl (List.mem_append.mpr (Or.inr ?_)))
    obtain ⟨r, hr⟩ := Option.isSome_iff_exists.mp h1
    unfold rootCauseLines
    rw [hr]
    by_cases h2 : (blocked rows).length = 0 <;> simp [rootCauseOf, h2]

lemma app_data_ne_nil_l (p x : String) (hp : p.data ≠ []) : (p ++ x).data ≠ [] := by
  rw [String.data_append]
  intro he
  exact hp (List.append_eq_nil.mp he).1

lemma app_data_ne_nil_r (p x : String) (hx : x.data ≠ []) : (p ++ x).data ≠ [] := by
  rw [String.data_append]
  intro he
  exact hx (List.append_eq_nil.mp he).2

lemma head?_app {α : Type} (x y : List α) :
    (x ++ y).head? = match x with | [] => y.head? | a :: _ => some a := by
  cases x <;> rfl

lemma lastChar_app (a b : String) :
    lastChar (a ++ b) = if b.data = [] then lastChar a else lastChar b := by
  unfold lastChar
  rw [String.data_append, List.reverse_append]
  rcases hb : b.data with _ | ⟨c, cs⟩
  · simp
  · rw [if_neg (by simp)]
    rw [List.reverse_cons, List.append_assoc, head?_app, head?_app]
    cases cs.reverse <;> rfl

lemma lastChar_app_r (p x : String) (hx : x.data ≠ []) :
    lastChar (p ++ x) = lastChar x := by
  rw [lastChar_app, if_neg hx]

lemma joinLines_cons (a : String) (t : List String) (h : t ≠ []) :
    joinLines (a :: t) = a ++ ("\n" ++ joinLines t) := by
  cases t with
  | nil => exact absurd rfl h
  | cons b ts => rfl

lemma joinLines_data_ne_nil (l : String) (ls : List String)
    (h : ls = [] → l.data ≠ []) : (joinLines (l :: ls)).data ≠ [] := by
  cases ls with
  | nil => exact h rfl
  | cons b ts =>
      rw [joinLines_cons _ _ (by simp)]
      exact app_data_ne_nil_r _ _ (app_data_ne_nil_l "\n" _ (by decide))

lemma joinLines_concat_data_ne_nil (L : List String) (m : String) (hm : m.data ≠ []) :
    (joinLines (L ++ [m])).data ≠ [] := by
  cases L with
  | nil => exact hm
  | cons a L' =>
      rw [List.cons_append]
      exact joinLines_data_ne_nil a (L' ++ [m]) (by simp)

/-- `'\n'.join` ends with the last line's last character. -/
lemma lastChar_joinLines (L : List String) (m : String) (hm : m.data ≠ []) :
    lastChar (joinLines (L ++ [m])) = lastChar m := by
  induction L with
  | nil => rfl
  | cons a L ih =>
      rw [List.cons_append, joinLines_cons a (L ++ [m]) (by simp)]
      rw [lastChar_app_r _ _ (app_data_ne_nil_l "\n" _ (by decide))]
      rw [lastChar_app_r _ _ (joinLines_concat_data_ne_nil L m hm)]
      exact ih

lemma trailingNewlines_app_nl (s : String) :
    trailingNewlines (s ++ "\n") = trailingNewlines s + 1 := by
  unfold trailingNewlines
  rw [String.data_append]
  have h1 : ("\n" : String).data = ['\n'] := rfl
  rw [h1, List.reverse_append]
  simp [List.takeWhile_cons]

lemma trailingNewlines_eq_zero {s : String} (h : lastChar s ≠ some '\n') :
    trailingNewlines s = 0 := by
  unfold trailingNewlines
  unfold lastChar at h
  cases hr : s.data.reverse with
  | nil => rfl
  | cons c cs =>
      have hc : ¬ (c == '\n') = true := by
        simp only [beq_iff_eq]
        intro hcc
        exact h (by rw [hr, hcc]; simp)
      simp [List.takeWhile_cons, hc]

lemma matrixLine_data_ne_nil (r : ResultRecord) : (matrixLine r).data ≠ [] := by
  rw [matrixLine_eq_app]
  exact app_data_ne_nil_l "- Test " _ (by decide)

/-- The matrix bullet ends with the record's `detail` text (or with the
space of the final `" | "` separator when `detail` is empty), so it never
ends in a newline unless `detail` does. -/
lemma lastChar_matrixLine (r : ResultRecord)
    (h : lastChar (r.detail.getD "") ≠ some '\n') :
    lastChar (matrixLine r) ≠ some '\n' := by
  rw [matrixLine_eq_app]
  have nZ1 : (" | " ++ r.detail.getD "").data ≠ [] :=
    app_data_ne_nil_l " | " _ (by decide)
  have nZ2 : (r.code.getD "UNKNOWN" ++ (" | " ++ r.detail.getD "")).data ≠ [] :=
    app_data_ne_nil_r _ _ nZ1
  have nZ3 : (" | " ++ (r.code.getD "UNKNOWN" ++ (" | " ++ r.detail.getD ""))).data ≠ [] :=
    app_data_ne_nil_l " | " _ (by decide)
  have nZ4 : (r.result.getD "UNKNOWN" ++ (" | " ++ (r.code.getD "UNKNOWN" ++
      (" | " ++ r.detail.getD "")))).data ≠ [] :=
    app_data_ne_nil_r _ _ nZ3
  have nZ5 : (": " ++ (r.result.getD "UNKNOWN" ++ (" | " ++ (r.code.getD "UNKNOWN" ++
      (" | " ++ r.detail.getD ""))))).data ≠ [] :=
    app_data_ne_nil_l ": " _ (by decide)
  have nZ6 : (r.test.getD "?" ++ (": " ++ (r.result.getD "UNKNOWN" ++
      (" | " ++ (r.code.getD "UNKNOWN" ++ (" | " ++ r.detail.getD "")))))).data ≠ [] :=
    app_data_ne_nil_r _ _ nZ5
  rw [lastChar_app_r _ _ nZ6, lastChar_app_r _ _ nZ5, lastChar_app_r _ _ nZ4,
    lastChar_app_r _ _ nZ3, lastChar_app_r _ _ nZ2, lastChar_app_r _ _ nZ1]
  rw [lastChar_app]
  by_cases hD : (r.detail.getD "").data = []
  · rw [if_pos hD]
    decide
  · rw [if_neg hD]
    exact h

/-- The joined document never ends with a newline of its own: the final
line is either `## Test matrix` (empty input) or the last matrix bullet. -/
lemma lastChar_joined_renderLines (rows : List ResultRecord) (ts inPath : String)
    (h : ∀ r ∈ rows, lastChar (r.detail.getD "") ≠ some '\n') :
    lastChar (joinLines (renderLines rows ts inPath)) ≠ some '\n' := by
  rcases List.eq_nil_or_concat rows with hnil | ⟨rs, r, hc⟩
  · subst hnil
    unfold renderLines
    have h0 : rootCauseLines ([] : List ResultRecord) = [] := rfl
    rw [h0]
    simp only [List.map_nil]
    rw [lastChar_joinLines _ "## Test matrix" (by decide)]
    decide
  · rw [List.concat_eq_append] at hc
    subst hc
    unfold renderLines
    rw [List.map_append]
    simp only [List.map_cons, List.map_nil]
    rw [← List.cons_append, ← List.append_assoc]
    rw [lastChar_joinLines _ _ (matrixLine_data_ne_nil r)]
    exact lastChar_matrixLine r (h r (by simp))

/-- Every line of the root-cause section has one of five shapes. -/
lemma mem_rootCauseOf_cases {s : String} {rf : Option ResultRecord} {m : Nat}
    (h : s ∈ rootCauseOf rf m) :
    s = "## Root cause" ∨ (∃ x, s = "- Test " ++ x) ∨ (∃ x, s = "- Detail: " ++ x) ∨
      (∃ k, s = dsLine k) ∨ s = "" := by
  match rf with
  | none => simp [rootCauseOf] at h
  | some r =>
      by_cases hm : m = 0
      · simp [rootCauseOf, hm] at h
        rcases h with h | h | h | h
        · exact Or.inl h
        · exact Or.inr (Or.inl ⟨_, h⟩)
        · exact Or.inr (Or.inr (Or.inl ⟨_, h⟩))
        · exact Or.inr (Or.inr (Or.inr (Or.inr h)))
      · simp [rootCauseOf, hm] at h
        rcases h with h | h | h | h | h
        · exact Or.inl h
        · exact Or.inr (Or.inl ⟨_, h⟩)
        · exact Or.inr (Or.inr (Or.inl ⟨_, h⟩))
        · exact Or.inr (Or.inr (Or.inr (Or.inl ⟨_, h⟩)))
        · exact Or.inr (Or.inr (Or.inr (Or.inr h)))

lemma rootFailure_append_none (xs ys : List ResultRecord)
    (h : ∀ x ∈ xs, x.result ≠ some "FAIL") :
    rootFailure (xs ++ ys) = rootFailure ys := by
  induction xs with
  | nil => rfl
  | cons x xs ih =>
      have hx : ¬ (x.result == some "FAIL") = true := by
        simp only [beq_iff_eq]
        exact h x (List.mem_cons_self _ _)
      rw [List.cons_append]
      show List.find? _ (x :: (xs ++ ys)) = _
      rw [List.find?_cons_of_neg (p := fun a : ResultRecord => a.result == some "FAIL") _ hx]
      exact ih (fun a ha => h a (List.mem_cons_of_mem _ ha))

lemma counts_sum_aux (rows : List ResultRecord) :
    (∀ r ∈ rows, resultLabel r = "PASS" ∨ resultLabel r = "FAIL" ∨
      resultLabel r = "BLOCKED" ∨ resultLabel r = "UNKNOWN") →
    countLabel rows "PASS" + countLabel rows "FAIL" + countLabel rows "BLOCKED" +
      countLabel rows "UNKNOWN" = rows.length := by
  induction rows with
  | nil => intro _; rfl
  | cons r rows ih =>
      intro h
      have hr := h r (List.mem_cons_self _ _)
      have ih' := ih (fun a ha => h a (List.mem_cons_of_mem _ ha))
      rw [countLabel_cons, countLabel_cons, countLabel_cons, countLabel_cons,
        List.length_cons]
      rcases hr with h1 | h1 | h1 | h1 <;> rw [h1] <;> simp <;> omega

/-- The UNKNOWN count collects exactly the records whose `result` key is
absent or explicitly `UNKNOWN`. -/
lemma countLabel_unknown (rows : List ResultRecord) :
    countLabel rows "UNKNOWN" =
      (rows.filter (fun r => r.result == none || r.result == some "UNKNOWN")).length := by
  unfold countLabel
  congr 1
  apply List.filter_congr
  intro r _
  rcases hr : r.result with _ | v <;> simp [resultLabel, hr]

/-- C1 (counterexample): a record whose `result` carries the
out-of-enumeration label `WEIRD` is counted under `WEIRD` itself — not
under `UNKNOWN` — so the PASS+FAIL+BLOCKED+UNKNOWN counts sum to 0 while
the input holds 1 record. -/
theorem counts_sum_counterexample :
    countLabel [⟨none, some "WEIRD", none, none⟩] "PASS" +
      countLabel [⟨none, some "WEIRD", none, none⟩] "FAIL" +
      countLabel [⟨none, some "WEIRD", none, none⟩] "BLOCKED" +
      countLabel [⟨none, some "WEIRD", none, none⟩] "UNKNOWN" ≠
    ([⟨none, some "WEIRD", none, none⟩] : List ResultRecord).length := by
  decide

/-- C1 (amended): when every record's defaulted result label lies in the
enumeration {PASS, FAIL, BLOCKED, UNKNOWN}, the four counts sum to the
number of records; and, unconditionally in that setting, the UNKNOWN
count is exactly the number of records whose `result` is absent or
explicitly `UNKNOWN`. -/
theorem counts_sum (rows : List ResultRecord)
    (h : ∀ r ∈ rows, resultLabel r = "PASS" ∨ resultLabel r = "FAIL" ∨
      resultLabel r = "BLOCKED" ∨ resultLabel r = "UNKNOWN") :
    countLabel rows "PASS" + countLabel rows "FAIL" + countLabel rows "BLOCKED" +
      countLabel rows "UNKNOWN" = rows.length ∧
    countLabel rows "UNKNOWN" =
      (rows.filter (fun r => r.result == none || r.result == some "UNKNOWN")).length :=
  ⟨counts_sum_aux rows h, countLabel_unknown rows⟩

/-- C1 witness: the amended sum property evaluated on a concrete mixed
input of three records. -/
theorem counts_sum_witness :
    countLabel [⟨some "a", some "PASS", none, none⟩, ⟨some "b", none, none, none⟩,
        ⟨some "c", some "BLOCKED", none, none⟩] "PASS" +
      countLabel [⟨some "a", some "PASS", none, none⟩, ⟨some "b", none, none, none⟩,
        ⟨some "c", some "BLOCKED", none, none⟩] "FAIL" +
      countLabel [⟨some "a", some "PASS", none, none⟩, ⟨some "b", none, none, none⟩,
        ⟨some "c", some "BLOCKED", none, none⟩] "BLOCKED" +
      countLabel [⟨some "a", some "PASS", none, none⟩, ⟨some "b", none, none, none⟩,
        ⟨some "c", some "BLOCKED", none, none⟩] "UNKNOWN" =
    ([⟨some "a", some "PASS", none, none⟩, ⟨some "b", none, none, none⟩,
        ⟨some "c", some "BLOCKED", none, none⟩] : List ResultRecord).length :=
  (counts_sum [⟨some "a", some "PASS", none, none⟩, ⟨some "b", none, none, none⟩,
    ⟨some "c", some "BLOCKED", none, none⟩] (by decide)).1

/-- C2: when the input splits as `xs ++ r :: ys` with no FAIL in `xs` and
`r.result = FAIL`, the script selects `r` — the first FAIL in input order —
as the root failure, and the root-cause section is built from `r`'s fields
alone (plus the total blocked count): records of `ys`, FAIL or not, never
contribute a line to it. -/
theorem root_failure_first (xs ys : List ResultRecord) (r : ResultRecord)
    (hxs : ∀ x ∈ xs, x.result ≠ some "FAIL") (hr : r.result = some "FAIL") :
    rootFailure (xs ++ r :: ys) = some r ∧
    rootCauseLines (xs ++ r :: ys) =
      ["## Root cause",
       "- Test " ++ (pyStr r.test ++ (": `" ++ (r.code.getD "UNKNOWN" ++ "`"))),
       "- Detail: " ++ r.detail.getD ""]
      ++ (if (blocked (xs ++ r :: ys)).length = 0 then []
          else [dsLine (blocked (xs ++ r :: ys)).length])
      ++ [""] := by
  have h1 := rootFailure_append_first xs ys hxs hr
  refine ⟨h1, ?_⟩
  unfold rootCauseLines
  rw [h1]
  rfl

/-- C2 witness: with FAIL records in positions 2 and 3, the root failure is
the record in position 2. -/
theorem root_failure_first_witness :
    rootFailure [⟨some "a", some "PASS", none, none⟩, ⟨some "b", some "FAIL", none, none⟩,
        ⟨some "c", some "FAIL", none, none⟩] =
      some ⟨some "b", some "FAIL", none, none⟩ :=
  (root_failure_first [⟨some "a", some "PASS", none, none⟩]
    [⟨some "c", some "FAIL", none, none⟩] ⟨some "b", some "FAIL", none, none⟩
    (by decide) rfl).1

/-- C3: when no record has result FAIL, the rendered lines contain no
`## Root cause` line and no downstream-blocked line, regardless of how
many BLOCKED records exist. -/
theorem no_root_cause (rows : List ResultRecord) (ts inPath : String)
    (h : ∀ r ∈ rows, r.result ≠ some "FAIL") :
    "## Root cause" ∉ renderLines rows ts inPath ∧
    ∀ n : Nat, dsLine n ∉ renderLines rows ts inPath := by
  have h0 : rootFailure rows = none := rootFailure_eq_none h
  constructor
  · intro hm
    have h1 := (rootCauseHeader_mem_iff rows ts inPath).mp hm
    rw [h0] at h1
    simp at h1
  · intro n hm
    have h1 := ((dsLine_mem_iff rows ts inPath n).mp hm).1
    rw [h0] at h1
    simp at h1

/-- C3 witness: a run whose only record is BLOCKED has no root-cause
header in its output. -/
theorem no_root_cause_witness :
    "## Root cause" ∉ renderLines [⟨some "t", some "BLOCKED", none, none⟩] "TS" "in.json" :=
  (no_root_cause [⟨some "t", some "BLOCKED", none, none⟩] "TS" "in.json" (by decide)).1

/-- C4: the rendered lines end with the `## Test matrix` header followed by
exactly one bullet per input record, in input order, each rendered with
the defaults `?` / `UNKNOWN` / `UNKNOWN` / empty string for absent fields;
the header line occurs nowhere before that point, so for the empty input
the section is the bare header with no bullets. -/
theorem test_matrix_section (rows : List ResultRecord) (ts inPath : String) :
    ∃ pre, renderLines rows ts inPath = pre ++ ("## Test matrix" :: rows.map matrixLine) ∧
      "## Test matrix" ∉ pre ∧
      ∀ r : ResultRecord, matrixLine r =
        "- Test " ++ (r.test.getD "?" ++ (": " ++ (r.result.getD "UNKNOWN" ++
          (" | " ++ (r.code.getD "UNKNOWN" ++ (" | " ++ r.detail.getD "")))))) := by
  refine ⟨headerLines rows ts inPath ++ rootCauseLines rows, rfl, ?_, fun r => rfl⟩
  intro hm
  simp only [headerLines, List.mem_append, List.mem_cons] at hm
  rcases hm with (h | h | h | h | h | h | h | h | h | h | hnil) | h
  · exact absurd h (by decide)
  · exact absurd h (by decide)
  · exact absurd h (ne_of_lead 1 (startsWithStr_self "## Test matrix")
      (startsWithStr_app "- Generated: " ts) (by decide) (by decide) (by decide))
  · exact absurd h (ne_of_lead 1 (startsWithStr_self "## Test matrix")
      (startsWithStr_app "- Input: `" _) (by decide) (by decide) (by decide))
  · exact absurd h (by decide)
  · exact absurd h (by decide)
  · exact absurd h (ne_of_lead 1 (startsWithStr_self "## Test matrix")
      (startsWithStr_app "- PASS: " _) (by decide) (by decide) (by decide))
  · exact absurd h (ne_of_lead 1 (startsWithStr_self "## Test matrix")
      (startsWithStr_app "- FAIL: " _) (by decide) (by decide) (by decide))
  · exact absurd h (ne_of_lead 1 (startsWithStr_self "## Test matrix")
      (startsWithStr_app "- BLOCKED: " _) (by decide) (by decide) (by decide))
  · exact absurd h (by decide)
  · exact absurd hnil (List.not_mem_nil _)
  · rcases mem_rootCauseOf_cases h with h1 | ⟨x, h1⟩ | ⟨x, h1⟩ | ⟨k, h1⟩ | h1
    · exact absurd h1 (by decide)
    · exact absurd h1 (fun he => (ne_of_lead 1 (startsWithStr_self "## Test matrix")
        (startsWithStr_app "- Test " x) (by decide) (by decide) (by decide)) he)
    · exact absurd h1 (fun he => (ne_of_lead 1 (startsWithStr_self "## Test matrix")
        (startsWithStr_app "- Detail: " x) (by decide) (by decide) (by decide)) he)
    · exact absurd h1 (fun he => (ne_of_lead 1 (startsWithStr_self "## Test matrix")
        (dsLine_lead k) (by decide) (by decide) (by decide)) he)
    · exact absurd h1 (by decide)

/-- C5: on the input `[{"result": "FAIL"}]` — whose first FAIL record lacks
the `test` key — the root-cause section renders the identifier as the text
`None` (Python's formatting of `root_failure.get('test')`, which is called
without a default), not as the documented default `?`; no line
`- Test ?: ...` appears anywhere in the document. -/
theorem root_cause_none_test :
    rootCauseLines [⟨none, some "FAIL", none, none⟩] =
      ["## Root cause", "- Test None: `UNKNOWN`", "- Detail: ", ""] ∧
    "- Test ?: `UNKNOWN`" ∉ renderLines [⟨none, some "FAIL", none, none⟩] "TS" "in.json" := by
  constructor
  · decide
  · decide

/-- C6: a run whose input path does not exist exits with a nonzero status,
writes nothing to the output path, and reports a diagnostic naming the
missing path. -/
theorem missing_input (rows : List ResultRecord) (ts inPath outPath : String) :
    (run false rows ts inPath outPath).exitCode ≠ 0 ∧
    (run false rows ts inPath outPath).written = none ∧
    (run false rows ts inPath outPath).stderr = "Input not found: " ++ inPath :=
  ⟨Nat.one_ne_zero, rfl, rfl⟩

/-- C7: the downstream-blocked line (carrying the total BLOCKED count)
appears in the document iff a root failure exists and at least one record
is BLOCKED; and any downstream-blocked line in the document is exactly
the one carrying `len(blocked)`. -/
theorem downstream_blocked_iff (rows : List ResultRecord) (ts inPath : String) :
    (dsLine (blocked rows).length ∈ renderLines rows ts inPath ↔
      (rootFailure rows).isSome = true ∧ (blocked rows).length ≠ 0) ∧
    ∀ n : Nat, dsLine n ∈ renderLines rows ts inPath →
      dsLine n = dsLine (blocked rows).length := by
  constructor
  · rw [dsLine_mem_iff]
    constructor
    · rintro ⟨a, b, _⟩
      exact ⟨a, b⟩
    · rintro ⟨a, b⟩
      exact ⟨a, b, rfl⟩
  · intro n hm
    exact ((dsLine_mem_iff rows ts inPath n).mp hm).2.2

/-- C7 witness: with one FAIL and one BLOCKED record, the downstream line
with count `len(blocked)` is present in the document. -/
theorem downstream_blocked_iff_witness :
    dsLine (blocked [⟨some "a", some "FAIL", none, none⟩,
        ⟨some "b", some "BLOCKED", none, none⟩]).length ∈
      renderLines [⟨some "a", some "FAIL", none, none⟩,
        ⟨some "b", some "BLOCKED", none, none⟩] "TS" "in.json" :=
  (downstream_blocked_iff [⟨some "a", some "FAIL", none, none⟩,
    ⟨some "b", some "BLOCKED", none, none⟩] "TS" "in.json").1.mpr ⟨by decide, by decide⟩

/-- C8 (counterexample): a successful run over a record whose `detail`
ends with a newline writes a document ending in two newline characters,
refuting the claim that the document always ends with exactly one. -/
theorem trailing_newline_counterexample :
    (run true [⟨none, none, none, some "x\n"⟩] "TS" "in.json" "out.md").exitCode = 0 ∧
    trailingNewlines (renderDoc [⟨none, none, none, some "x\n"⟩] "TS" "in.json") = 2 := by
  constructor
  · rfl
  · decide

/-- C8 (amended): every successful run — with no proviso on the records —
writes the rendered document to the output path, prints the output path to
standard output (with the newline `print` appends) as the sole other side
effect, and exits 0; the written document always ends with at least one
trailing newline, and with exactly one provided no record's `detail` text
itself ends with a newline character. -/
theorem run_success (rows : List ResultRecord) (ts inPath outPath : String) :
    run true rows ts inPath outPath =
      ⟨0, some (renderDoc rows ts inPath), outPath ++ "\n", ""⟩ ∧
    1 ≤ trailingNewlines (renderDoc rows ts inPath) ∧
    ((∀ r ∈ rows, lastChar (r.detail.getD "") ≠ some '\n') →
      trailingNewlines (renderDoc rows ts inPath) = 1) := by
  refine ⟨rfl, ?_, ?_⟩
  · unfold renderDoc
    rw [trailingNewlines_app_nl]
    omega
  · intro h
    unfold renderDoc
    rw [trailingNewlines_app_nl]
    have h0 : trailingNewlines (joinLines (renderLines rows ts inPath)) = 0 :=
      trailingNewlines_eq_zero (lastChar_joined_renderLines rows ts inPath h)
    omega

/-- C8 witness: a concrete successful run whose document ends with exactly
one newline. -/
theorem run_success_witness :
    trailingNewlines (renderDoc [⟨some "t1", some "PASS", none, none⟩] "TS" "in.json") = 1 :=
  (run_success [⟨some "t1", some "PASS", none, none⟩] "TS" "in.json" "out.md").2.2 (by decide)

/-- C9: rendering is a pure function of the records, the clock value and
the input path — equal inputs give byte-identical documents — and two
renderings that differ only in the clock value produce line lists of equal
length agreeing at every index except 2, which is the `- Generated:`
timestamp line. -/
theorem deterministic_modulo_timestamp (rows : List ResultRecord)
    (ts1 ts2 inPath : String) :
    (ts1 = ts2 → renderDoc rows ts1 inPath = renderDoc rows ts2 inPath) ∧
    (renderLines rows ts1 inPath).length = (renderLines rows ts2 inPath).length ∧
    (renderLines rows ts1 inPath).get? 2 = some ("- Generated: " ++ ts1) ∧
    ∀ i : Nat, i ≠ 2 →
      (renderLines rows ts1 inPath).get? i = (renderLines rows ts2 inPath).get? i := by
  refine ⟨fun h => by rw [h], ?_, rfl, ?_⟩
  · simp [renderLines, headerLines]
  · intro i hi
    match i with
    | 0 => rfl
    | 1 => rfl
    | 2 => exact absurd rfl hi
    | (n + 3) => rfl

/-- C9 witness: two renderings under different clock values agree at
index 0. -/
theorem deterministic_modulo_timestamp_witness :
    (renderLines [] "clockA" "in.json").get? 0 = (renderLines [] "clockB" "in.json").get? 0 :=
  (deterministic_modulo_timestamp [] "clockA" "clockB" "in.json").2.2.2 0 (by decide)

/-- C10: the blocked list is taken over the whole input, so BLOCKED records
positioned before the first FAIL still count: for `xs ++ ys` with no FAIL
in `xs`, the root failure comes from `ys` while the downstream count is
the blocked total of `xs` plus that of `ys`, and the downstream line
rendered with that combined total is the one the document carries. -/
theorem blocked_before_fail_counted (xs ys : List ResultRecord) (ts inPath : String)
    (h : ∀ x ∈ xs, x.result ≠ some "FAIL") :
    (blocked (xs ++ ys)).length = (blocked xs).length + (blocked ys).length ∧
    rootFailure (xs ++ ys) = rootFailure ys ∧
    (dsLine ((blocked xs).length + (blocked ys).length) ∈ renderLines (xs ++ ys) ts inPath ↔
      ((rootFailure ys).isSome = true ∧ (blocked xs).length + (blocked ys).length ≠ 0)) := by
  have hb : (blocked (xs ++ ys)).length = (blocked xs).length + (blocked ys).length := by
    rw [blocked_append, List.length_append]
  have hrf := rootFailure_append_none xs ys h
  refine ⟨hb, hrf, ?_⟩
  rw [← hb, dsLine_mem_iff, hrf, hb]
  constructor
  · rintro ⟨a, b, _⟩
    exact ⟨a, b⟩
  · rintro ⟨a, b⟩
    exact ⟨a, b, rfl⟩

/-- C10 witness: a BLOCKED record placed before the first FAIL is included
in the downstream count. -/
theorem blocked_before_fail_counted_witness :
    (blocked ([⟨some "b", some "BLOCKED", none, none⟩] ++
        [⟨some "f", some "FAIL", none, none⟩])).length =
      (blocked [⟨some "b", some "BLOCKED", none, none⟩]).length +
        (blocked [⟨some "f", some "FAIL", none, none⟩]).length :=
  (blocked_before_fail_counted [⟨some "b", some "BLOCKED", none, none⟩]
    [⟨some "f", some "FAIL", none, none⟩] "TS" "in.json" (by decide)).1

end LadderSummarize
